import Mathlib

/-!
Verification of the logging configuration record of `options.go` (package
`log`): the `Options` struct, its defaults constructor `NewOptions`, the
`Validate` method, flag binding `AddFlags`, and the JSON `String` method.

Strings are modelled as Lean `String`. Character case operations model the
ASCII behaviour of Go's `strings.ToLower` / `bytes.ToLower` (the Go
functions additionally lower-case non-ASCII letters; no recognized token or
format name contains a non-ASCII letter). Errors are modelled by their
message strings.
-/

set_option maxRecDepth 4096

deriving instance DecidableEq for Except

/-- ASCII lower-casing of a string, modelling `strings.ToLower` /
`bytes.ToLower` restricted to ASCII input (character-wise lower-casing). -/
def goToLower (s : String) : String :=
  String.mk (s.data.map Char.toLower)

/-- Lower-case hexadecimal digit for `n < 16`, as used by Go's quoting. -/
def hexDigit (n : Nat) : Char :=
  if n < 10 then Char.ofNat (48 + n) else Char.ofNat (87 + n)

/-- Quoting of one character as done by Go's `%q` verb (`strconv.Quote`):
double quote and backslash are backslash-escaped, printable ASCII is kept,
the seven special control characters get their two-character escapes, other
control characters (and DEL) become `\xhh`. Non-ASCII printable characters
are kept as-is, matching Go; unprintable non-ASCII characters (which Go
writes as `\u` escapes) are also kept as-is, a divergence no theorem below
depends on. -/
def goQuoteChar (c : Char) : String :=
  if c = '\"' then "\\\""
  else if c = '\\' then "\\\\"
  else if 0x20 ≤ c.toNat ∧ c.toNat ≤ 0x7e then String.singleton c
  else if c.toNat = 7 then "\\a"
  else if c.toNat = 8 then "\\b"
  else if c.toNat = 12 then "\\f"
  else if c.toNat = 10 then "\\n"
  else if c.toNat = 13 then "\\r"
  else if c.toNat = 9 then "\\t"
  else if c.toNat = 11 then "\\v"
  else if c.toNat < 0x20 ∨ c.toNat = 0x7f then
    "\\x" ++ String.singleton (hexDigit (c.toNat / 16)) ++
      String.singleton (hexDigit (c.toNat % 16))
  else String.singleton c

/-- Concatenation of the `%q` encodings of a list of characters. -/
def goQuoteChars : List Char → String
  | [] => ""
  | c :: cs => goQuoteChar c ++ goQuoteChars cs

/-- Go's `%q` formatting of a string: the quoted characters wrapped in
double quotes. -/
def goQuote (s : String) : String :=
  "\"" ++ goQuoteChars s.data ++ "\""

/-- The named severity tokens recognized by zapcore's `Level.unmarshalText`
switch (lower-case forms); the empty string is additionally accepted by the
`info` case of that switch. -/
def severityTokens : List String :=
  ["debug", "info", "warn", "error", "dpanic", "panic", "fatal"]

/-- One matching attempt of zapcore's `Level.unmarshalText`: the exact
switch over the token spellings it lists, returning the numeric level
(Debug = -1 … Fatal = 5). The empty string maps to Info ("make the zero
value useful"). -/
def unmarshalTextCase (s : String) : Option Int :=
  if s = "debug" ∨ s = "DEBUG" then some (-1)
  else if s = "info" ∨ s = "INFO" ∨ s = "" then some 0
  else if s = "warn" ∨ s = "WARN" then some 1
  else if s = "error" ∨ s = "ERROR" then some 2
  else if s = "dpanic" ∨ s = "DPANIC" then some 3
  else if s = "panic" ∨ s = "PANIC" then some 4
  else if s = "fatal" ∨ s = "FATAL" then some 5
  else none

/-- zapcore's `Level.UnmarshalText` on a non-nil receiver: try the switch on
the text itself, then on its lower-cased form; if both fail, return the
error `unrecognized level: %q`. -/
def levelUnmarshalText (s : String) : Except String Int :=
  match unmarshalTextCase s with
  | some l => Except.ok l
  | none =>
    match unmarshalTextCase (goToLower s) with
    | some l => Except.ok l
    | none => Except.error ("unrecognized level: " ++ goQuote s)

/-- Whether a string is accepted by the severity parser. -/
def levelParses (s : String) : Bool :=
  match levelUnmarshalText s with
  | Except.ok _ => true
  | Except.error _ => false

def consoleFormat : String := "console"

def jsonFormat : String := "json"

def flagLevel : String := "log.level"

def flagFormat : String := "log.format"

def flagEnableColor : String := "log.enable-color"

def flagEnableCaller : String := "log.enable-caller"

def flagOutputPaths : String := "log.output-paths"

def flagErrorOutputPaths : String := "log.error-output-paths"

def flagDevelopment : String := "log.development"

def flagName : String := "log.name"

def flagDisableStacktrace : String := "log.disable-stacktrace"

def flagMaxSizeInMB : String := "log.max-size-mb"

def flagMaxAgeInDays : String := "log.max-age-days"

/-- The `Options` struct: configuration items related to log. Field order
follows the Go declaration. Go `int` is modelled as `Int`; a field left out
of a Go composite literal takes the zero value of its type (`""`, `false`,
`[]`, `0`), which is the `default` recorded here. -/
structure Options where
  Level : String := ""
  Format : String := ""
  EnableColor : Bool := false
  EnableCaller : Bool := false
  OutputPaths : List String := []
  ErrorOutputPaths : List String := []
  DisableStacktrace : Bool := false
  Development : Bool := false
  Name : String := ""
  MaxSizeInMB : Int := 0
  MaxAgeInDays : Int := 0
deriving DecidableEq

/-- `NewOptions` creates an `Options` object with default parameters.
`zapcore.InfoLevel.String()` is the string `"info"`. The fields absent from
the Go composite literal take their zero values. -/
def NewOptions : Options :=
  { Level := "info"
    Format := consoleFormat
    EnableColor := false
    EnableCaller := false
    OutputPaths := ["stdout"]
    ErrorOutputPaths := ["stderr"] }

/-- Message of the format error appended by `Validate`:
`fmt.Errorf("not a valid log format: %q", o.Format)`. -/
def formatErrMsg (s : String) : String :=
  "not a valid log format: " ++ goQuote s

/-- `Validate` validates the options fields: attempt to unmarshal `Level`
into a `zapcore.Level`, appending the parse error on failure; then check
that the lower-cased `Format` is `console` or `json`, appending the format
error otherwise. Returns the collected error list. -/
def Options.Validate (o : Options) : List String :=
  let errs0 : List String := []
  let errs1 :=
    match levelUnmarshalText o.Level with
    | Except.error e => errs0 ++ [e]
    | Except.ok _ => errs0
  let format := goToLower o.Format
  if format ≠ consoleFormat ∧ format ≠ jsonFormat then
    errs1 ++ [formatErrMsg o.Format]
  else
    errs1

/-- State-passing form of `Validate`: the Go method has a pointer receiver,
so this version returns the receiver's state after the call alongside the
error list. The body reads `o.Level` and `o.Format` and assigns only the
local variables `errs`, `zapLevel` and `format`, never a field of `o`, so
the receiver component is the translation of that unchanged state. -/
def Options.ValidateM (o : Options) : Options × List String :=
  let errs0 : List String := []
  let errs1 :=
    match levelUnmarshalText o.Level with
    | Except.error e => errs0 ++ [e]
    | Except.ok _ => errs0
  let format := goToLower o.Format
  if format ≠ consoleFormat ∧ format ≠ jsonFormat then
    (o, errs1 ++ [formatErrMsg o.Format])
  else
    (o, errs1)

/-- Encoding of one character of a JSON string by Go's `encoding/json`
(with its default HTML escaping): double quote and backslash are
backslash-escaped, `<`, `>`, `&` become `<`/`>`/`&`,
newline/carriage-return/tab get two-character escapes, other control
characters become `\u00xx`; everything else is kept as-is. -/
def jsonQuoteChar (c : Char) : String :=
  if c = '\"' then "\\\""
  else if c = '\\' then "\\\\"
  else if c = '<' then "\\u003c"
  else if c = '>' then "\\u003e"
  else if c = '&' then "\\u0026"
  else if c.toNat = 10 then "\\n"
  else if c.toNat = 13 then "\\r"
  else if c.toNat = 9 then "\\t"
  else if c.toNat < 0x20 then
    "\\u00" ++ String.singleton (hexDigit (c.toNat / 16)) ++
      String.singleton (hexDigit (c.toNat % 16))
  else String.singleton c

/-- JSON encoding of a Go string value. -/
def jsonEncodeString (s : String) : String :=
  "\"" ++ String.join (s.data.map jsonQuoteChar) ++ "\""

/-- JSON encoding of a Go bool value. -/
def jsonEncodeBool (b : Bool) : String :=
  if b then "true" else "false"

/-- JSON encoding of a Go int value (decimal). -/
def jsonEncodeInt (n : Int) : String :=
  toString n

/-- JSON encoding of a Go `[]string` value: elements in order. A nil slice
would encode as `null`; the claims below only concern non-nil slices, and
the model does not distinguish nil from empty. -/
def jsonEncodeStringList (l : List String) : String :=
  "[" ++ String.intercalate "," (l.map jsonEncodeString) ++ "]"

/-- The key/encoded-value pairs produced by `json.Marshal` on `Options`:
one pair per struct field, keyed by the field's `json:` tag, in field
declaration order. -/
def optionsJsonFields (o : Options) : List (String × String) :=
  [("level", jsonEncodeString o.Level),
   ("format", jsonEncodeString o.Format),
   ("enable-color", jsonEncodeBool o.EnableColor),
   ("enable-caller", jsonEncodeBool o.EnableCaller),
   ("output-paths", jsonEncodeStringList o.OutputPaths),
   ("error-output-paths", jsonEncodeStringList o.ErrorOutputPaths),
   ("disable-stacktrace", jsonEncodeBool o.DisableStacktrace),
   ("development", jsonEncodeBool o.Development),
   ("name", jsonEncodeString o.Name),
   ("max-size-in-mb", jsonEncodeInt o.MaxSizeInMB),
   ("max-age-in-days", jsonEncodeInt o.MaxAgeInDays)]

/-- The `String` method of `Options`: `json.Marshal` of the struct (whose
encoding cannot fail on this struct, so the swallowed-error branch returns
the marshalled bytes), rendered as a JSON object with the tagged keys in
field order. -/
def Options.string (o : Options) : String :=
  "\x7b" ++
    String.intercalate ","
      ((optionsJsonFields o).map (fun kv => "\"" ++ kv.1 ++ "\":" ++ kv.2)) ++
  "\x7d"

/-- Value stored as a flag's default: pflag distinguishes string, bool,
string-slice and int flags. -/
inductive FlagVal where
  | str (v : String)
  | boolean (v : Bool)
  | strList (v : List String)
  | intVal (v : Int)
deriving DecidableEq

/-- One flag registered on a `pflag.FlagSet`: its name, its default value,
and its usage string. -/
structure pflag.Flag where
  name : String
  defVal : FlagVal
  usage : String
deriving DecidableEq

/-- Models `pflag.FlagSet.StringVar`: registers a flag with the given name,
default and usage, and stores the default into the bound variable (pflag
assigns the provided default to the target at registration time). Returns
the registered flag and the variable's new value. -/
def stringVar (name : String) (value : String) (usage : String) :
    pflag.Flag × String :=
  ({ name := name, defVal := FlagVal.str value, usage := usage }, value)

/-- Models `pflag.FlagSet.BoolVar`, as [stringVar] for bool flags. -/
def boolVar (name : String) (value : Bool) (usage : String) :
    pflag.Flag × Bool :=
  ({ name := name, defVal := FlagVal.boolean value, usage := usage }, value)

/-- Models `pflag.FlagSet.StringSliceVar`, as [stringVar] for string-slice
flags. -/
def stringSliceVar (name : String) (value : List String) (usage : String) :
    pflag.Flag × List String :=
  ({ name := name, defVal := FlagVal.strList value, usage := usage }, value)

/-- Models `pflag.FlagSet.IntVar`, as [stringVar] for int flags. -/
def intVar (name : String) (value : Int) (usage : String) :
    pflag.Flag × Int :=
  ({ name := name, defVal := FlagVal.intVal value, usage := usage }, value)

/-- `AddFlags` adds flags for log to the specified `FlagSet` object, one
registration per field in the source's order, each with the field's current
value as default. The Go code passes a pointer to each field; the
state-passing translation rebuilds the record from the values the
registrations stored through those pointers and returns it alongside the
registered flags. -/
def Options.AddFlags (o : Options) : List pflag.Flag × Options :=
  let r1 := stringVar flagLevel o.Level "Minimum log output `LEVEL`."
  let r2 := stringVar flagFormat o.Format
    "Log output `FORMAT`, support plain or json format."
  let r3 := boolVar flagEnableColor o.EnableColor
    "Enable output ansi colors in plain format logs."
  let r4 := boolVar flagEnableCaller o.EnableCaller
    "Enable output of caller information in the log."
  let r5 := stringSliceVar flagOutputPaths o.OutputPaths
    "Output paths of log."
  let r6 := stringSliceVar flagErrorOutputPaths o.ErrorOutputPaths
    "Error output paths of log."
  let r7 := boolVar flagDevelopment o.Development
    ("Development puts the logger in development mode, which changes " ++
      "the behavior of DPanicLevel and takes stacktraces more liberally.")
  let r8 := stringVar flagName o.Name "The name of the logger."
  let r9 := boolVar flagDisableStacktrace o.DisableStacktrace
    "Disable the log to record a stack trace for all messages at or above panic level."
  let r10 := intVar flagMaxSizeInMB o.MaxSizeInMB "The max size in MB."
  let r11 := intVar flagMaxAgeInDays o.MaxAgeInDays "The max age in Days."
  ([r1.1, r2.1, r3.1, r4.1, r5.1, r6.1, r7.1, r8.1, r9.1, r10.1, r11.1],
   { Level := r1.2
     Format := r2.2
     EnableColor := r3.2
     EnableCaller := r4.2
     OutputPaths := r5.2
     ErrorOutputPaths := r6.2
     DisableStacktrace := r9.2
     Development := r7.2
     Name := r8.2
     MaxSizeInMB := r10.2
     MaxAgeInDays := r11.2 })

/-- Decides whether `t` occurs at the start of `l`. -/
def listPrefixB : List Char → List Char → Bool
  | [], _ => true
  | _ :: _, [] => false
  | a :: as, b :: bs => a = b && listPrefixB as bs

/-- Decides whether `t` occurs contiguously anywhere in the second list. -/
def listContainsB (t : List Char) : List Char → Bool
  | [] => listPrefixB t []
  | c :: cs => listPrefixB t (c :: cs) || listContainsB t cs

/-- Whether string `t` occurs contiguously in string `s`. -/
def strContainsB (s t : String) : Bool :=
  listContainsB t.data s.data

theorem listPrefixB_iff (t l : List Char) :
    listPrefixB t l = true ↔ ∃ q, l = t ++ q := by
  induction t generalizing l with
  | nil =>
    simp [listPrefixB]
  | cons a as ih =>
    cases l with
    | nil =>
      simp [listPrefixB]
    | cons b bs =>
      simp only [listPrefixB, Bool.and_eq_true, decide_eq_true_eq, ih,
        List.cons_append, List.cons.injEq]
      constructor
      · rintro ⟨rfl, q, rfl⟩
        exact ⟨q, rfl, rfl⟩
      · rintro ⟨q, rfl, rfl⟩
        exact ⟨rfl, q, rfl⟩

theorem listContainsB_iff (t l : List Char) :
    listContainsB t l = true ↔ ∃ p q, l = p ++ t ++ q := by
  induction l with
  | nil =>
    simp only [listContainsB, listPrefixB_iff]
    constructor
    · rintro ⟨q, hq⟩
      exact ⟨[], q, by simpa using hq⟩
    · rintro ⟨p, q, hq⟩
      exact ⟨q, by
        rcases List.append_eq_nil.mp (List.append_eq_nil.mp hq.symm).1 with ⟨h1, h2⟩
        simp [h2, (List.append_eq_nil.mp hq.symm).2]⟩
  | cons c cs ih =>
    simp only [listContainsB, Bool.or_eq_true, listPrefixB_iff, ih]
    constructor
    · rintro (⟨q, hq⟩ | ⟨p, q, hq⟩)
      · exact ⟨[], q, by simpa using hq⟩
      · exact ⟨c :: p, q, by simp [hq]⟩
    · rintro ⟨p, q, hq⟩
      cases p with
      | nil =>
        exact Or.inl ⟨q, by simpa using hq⟩
      | cons p0 ps =>
        simp only [List.cons_append, List.cons.injEq] at hq
        exact Or.inr ⟨ps, q, hq.2⟩

/-- Occurrence of `t` in `s`, characterized: `t.data` is a contiguous
segment of `s.data`. -/
theorem strContainsB_iff (s t : String) :
    strContainsB s t = true ↔ ∃ p q, s.data = p ++ t.data ++ q :=
  listContainsB_iff t.data s.data

/-- Characters kept verbatim by Go's `%q`: printable ASCII other than the
double quote and the backslash. -/
def plainChar (c : Char) : Prop :=
  0x20 ≤ c.toNat ∧ c.toNat ≤ 0x7e ∧ c ≠ '\"' ∧ c ≠ '\\'

theorem goQuoteChar_plain {c : Char} (h : plainChar c) :
    goQuoteChar c = String.singleton c := by
  obtain ⟨h1, h2, h3, h4⟩ := h
  simp [goQuoteChar, h1, h2, h3, h4]

theorem goQuoteChars_plain (l : List Char) (h : ∀ c ∈ l, plainChar c) :
    goQuoteChars l = String.mk l := by
  induction l with
  | nil => rfl
  | cons c cs ih =>
    have hc : plainChar c := h c (by simp)
    rw [goQuoteChars, goQuoteChar_plain hc,
      ih (fun d hd => h d (by simp [hd]))]
    apply String.ext
    simp [String.singleton]

/-- On strings of plain characters, `%q` is plain double-quote wrapping. -/
theorem goQuote_plain (s : String) (h : ∀ c ∈ s.data, plainChar c) :
    goQuote s = "\"" ++ s ++ "\"" := by
  rw [goQuote, goQuoteChars_plain s.data h]

/-- A string occurs in any concatenation that sandwiches it. -/
theorem strContainsB_append (a s b : String) :
    strContainsB (a ++ s ++ b) s = true := by
  rw [strContainsB_iff]
  exact ⟨a.data, b.data, by simp [String.data_append]⟩

/-- Unfolding of `Validate` into the level part followed by the format
part. -/
theorem Options.validate_eq (o : Options) :
    o.Validate =
      (match levelUnmarshalText o.Level with
       | Except.error e => [e]
       | Except.ok _ => []) ++
      (if goToLower o.Format ≠ consoleFormat ∧ goToLower o.Format ≠ jsonFormat
       then [formatErrMsg o.Format] else []) := by
  unfold Options.Validate
  by_cases hc : goToLower o.Format ≠ consoleFormat ∧ goToLower o.Format ≠ jsonFormat <;>
    cases levelUnmarshalText o.Level <;> simp [hc]

/-- C1: the record built by `NewOptions`, validated unchanged, yields the
empty error sequence. -/
theorem C1_newOptions_validate_empty : NewOptions.Validate = [] := by decide

/-- C2 counterexample: with `Format = "a\"b"` — not a case-insensitive
match for console or json — and the valid default Level, `Validate` returns
exactly one format error, but that error's message does not contain the
literal original string `a"b`: the `%q` verb escapes the inner double
quote. -/
theorem C2_cex_quote_escaped :
    ({ NewOptions with Format := "a\"b" } : Options).Validate =
      ["not a valid log format: \"a\\\"b\""] ∧
    strContainsB "not a valid log format: \"a\\\"b\"" "a\"b" = false := by
  constructor
  · decide
  · decide

/-- C2 (amended): for every record whose Level parses and whose lower-cased
Format is neither console nor json, Validate returns exactly one error —
the format error, whose message embeds the %q-quoted Format; whenever every
character of the Format string is printable ASCII other than double quote
and backslash, the message contains the literal original string with case
preserved; in particular, for Format = "XML" on an otherwise default
record, the single error message equals: not a valid log format: "XML". -/
theorem C2_format_error (o : Options)
    (hlev : levelParses o.Level = true)
    (h1 : goToLower o.Format ≠ consoleFormat)
    (h2 : goToLower o.Format ≠ jsonFormat) :
    o.Validate = [formatErrMsg o.Format] ∧
    ((∀ c ∈ o.Format.data, plainChar c) →
      strContainsB (formatErrMsg o.Format) o.Format = true) ∧
    ({ NewOptions with Format := "XML" } : Options).Validate =
      ["not a valid log format: \"XML\""] := by
  refine ⟨?_, ?_, by decide⟩
  · rw [Options.validate_eq]
    unfold levelParses at hlev
    cases hlt : levelUnmarshalText o.Level with
    | error e => rw [hlt] at hlev; simp at hlev
    | ok l => simp [hlt, h1, h2]
  · intro hplain
    rw [strContainsB_iff]
    refine ⟨("not a valid log format: \"").data, ("\"").data, ?_⟩
    rw [formatErrMsg, goQuote_plain _ hplain]
    have hlit : ("not a valid log format: \"" : String).data =
        ("not a valid log format: " : String).data ++ ("\"" : String).data := by
      decide
    simp [String.data_append, hlit, List.append_assoc]

/-- C2 witness: the XML scenario, by the amended theorem at the concrete
record. -/
theorem C2_format_error_witness :
    ({ NewOptions with Format := "XML" } : Options).Validate =
      ["not a valid log format: \"XML\""] :=
  (C2_format_error { NewOptions with Format := "XML" }
    (by decide) (by decide) (by decide)).2.2

/-- C3: with a valid Format, a Level string that fails severity parsing
yields exactly one error — the parse error — and a Level string accepted by
the parser (any recognized token in any letter case) contributes no error:
Validate returns the empty sequence. -/
theorem C3_level_errors (o : Options)
    (hf : goToLower o.Format = consoleFormat ∨ goToLower o.Format = jsonFormat) :
    (∀ e, levelUnmarshalText o.Level = Except.error e → o.Validate = [e]) ∧
    (levelParses o.Level = true → o.Validate = []) := by
  have hfc : ¬(goToLower o.Format ≠ consoleFormat ∧ goToLower o.Format ≠ jsonFormat) := by
    rcases hf with h | h <;> simp [h]
  constructor
  · intro e he
    rw [Options.validate_eq, he]
    simp [hfc]
  · intro hp
    unfold levelParses at hp
    rw [Options.validate_eq]
    cases hlt : levelUnmarshalText o.Level with
    | error e => rw [hlt] at hp; simp at hp
    | ok l => simp [hlt, hfc]

/-- C3 witness: an unparseable Level with the default Format yields exactly
the parse error, by the theorem at the concrete record. -/
theorem C3_level_errors_witness :
    ({ NewOptions with Level := "not-a-level" } : Options).Validate =
      ["unrecognized level: \"not-a-level\""] :=
  (C3_level_errors { NewOptions with Level := "not-a-level" }
    (Or.inl (by decide))).1 _ (by decide)

/-- C4: when the Level fails to parse and the lower-cased Format is neither
console nor json, Validate returns exactly two errors in the fixed order:
the level-parse error first, then the format error — both checks always
run. -/
theorem C4_both_errors (o : Options) (e : String)
    (he : levelUnmarshalText o.Level = Except.error e)
    (h1 : goToLower o.Format ≠ consoleFormat)
    (h2 : goToLower o.Format ≠ jsonFormat) :
    o.Validate = [e, formatErrMsg o.Format] := by
  rw [Options.validate_eq, he]
  simp [h1, h2]

/-- C4 witness: both fields invalid on a concrete record. -/
theorem C4_both_errors_witness :
    ({ Level := "bad", Format := "yaml" } : Options).Validate =
      ["unrecognized level: \"bad\"", "not a valid log format: \"yaml\""] :=
  C4_both_errors { Level := "bad", Format := "yaml" } _
    (by decide) (by decide) (by decide)

/-- C5: the defaults constructor sets every field to its documented
default. -/
theorem C5_defaults :
    NewOptions.Level = "info" ∧ NewOptions.Format = "console" ∧
    NewOptions.OutputPaths = ["stdout"] ∧
    NewOptions.ErrorOutputPaths = ["stderr"] ∧
    NewOptions.EnableColor = false ∧ NewOptions.EnableCaller = false ∧
    NewOptions.DisableStacktrace = false ∧ NewOptions.Development = false ∧
    NewOptions.Name = "" ∧ NewOptions.MaxSizeInMB = 0 ∧
    NewOptions.MaxAgeInDays = 0 := by
  decide

/-- The state-passing form of `Validate` returns the receiver unchanged
together with the pure form's error list. -/
theorem Options.validateM_eq (o : Options) : o.ValidateM = (o, o.Validate) := by
  unfold Options.ValidateM Options.Validate
  by_cases hc : goToLower o.Format ≠ consoleFormat ∧ goToLower o.Format ≠ jsonFormat <;>
    cases levelUnmarshalText o.Level <;> simp [hc]

/-- C6: `Validate` is pure and idempotent — its state-passing form leaves
every field of the record unchanged and returns the same error list as the
pure form, and a second call on the state it returns yields an identical
error sequence. -/
theorem C6_validate_pure_idempotent (o : Options) :
    (o.ValidateM).1 = o ∧ (o.ValidateM).2 = o.Validate ∧
    ((o.ValidateM).1.ValidateM).2 = (o.ValidateM).2 := by
  rw [Options.validateM_eq]
  exact ⟨rfl, rfl, by rw [Options.validateM_eq]⟩

/-- C7: `Validate` is a total function returning at most two errors, and
its result is exactly one of four shapes: no error when both checks pass;
the level-parse error alone; the format error alone; or the level-parse
error followed by the format error — so every returned error is of one of
exactly those two kinds. -/
theorem C7_error_shapes (o : Options) :
    o.Validate.length ≤ 2 ∧
    ((levelParses o.Level = true ∧
        (goToLower o.Format = consoleFormat ∨ goToLower o.Format = jsonFormat) ∧
        o.Validate = []) ∨
     (∃ e, levelUnmarshalText o.Level = Except.error e ∧
        (goToLower o.Format = consoleFormat ∨ goToLower o.Format = jsonFormat) ∧
        o.Validate = [e]) ∨
     (levelParses o.Level = true ∧
        goToLower o.Format ≠ consoleFormat ∧ goToLower o.Format ≠ jsonFormat ∧
        o.Validate = [formatErrMsg o.Format]) ∨
     (∃ e, levelUnmarshalText o.Level = Except.error e ∧
        goToLower o.Format ≠ consoleFormat ∧ goToLower o.Format ≠ jsonFormat ∧
        o.Validate = [e, formatErrMsg o.Format])) := by
  constructor
  · rw [Options.validate_eq]
    by_cases hc : goToLower o.Format ≠ consoleFormat ∧ goToLower o.Format ≠ jsonFormat <;>
      cases levelUnmarshalText o.Level <;> simp [hc]
  · by_cases hc : goToLower o.Format ≠ consoleFormat ∧ goToLower o.Format ≠ jsonFormat
    · cases hlt : levelUnmarshalText o.Level with
      | ok l =>
        refine Or.inr (Or.inr (Or.inl ⟨?_, hc.1, hc.2, ?_⟩))
        · unfold levelParses
          rw [hlt]
        · rw [Options.validate_eq, hlt]
          simp [hc]
      | error e =>
        refine Or.inr (Or.inr (Or.inr ⟨e, rfl, hc.1, hc.2, ?_⟩))
        rw [Options.validate_eq, hlt]
        simp [hc]
    · have hor : goToLower o.Format = consoleFormat ∨ goToLower o.Format = jsonFormat :=
        (not_and_or.mp hc).imp not_not.mp not_not.mp
      have hcF : ¬(goToLower o.Format ≠ consoleFormat ∧ goToLower o.Format ≠ jsonFormat) := hc
      cases hlt : levelUnmarshalText o.Level with
      | ok l =>
        refine Or.inl ⟨?_, hor, ?_⟩
        · unfold levelParses
          rw [hlt]
        · rw [Options.validate_eq, hlt]
          simp [hcF]
      | error e =>
        refine Or.inr (Or.inl ⟨e, rfl, hor, ?_⟩)
        rw [Options.validate_eq, hlt]
        simp [hcF]

/-- C8: serialization produces a JSON object with one key per field using
the documented kebab-case external key names in field-declaration order;
the default record serializes to the exact string below, which contains
"format":"console" and "output-paths":["stdout"]; the element order of a
path list is preserved (shown on a two-element OutputPaths). -/
theorem C8_string_json :
    (∀ o : Options, (optionsJsonFields o).map Prod.fst =
      ["level", "format", "enable-color", "enable-caller", "output-paths",
       "error-output-paths", "disable-stacktrace", "development", "name",
       "max-size-in-mb", "max-age-in-days"]) ∧
    NewOptions.string =
      "\x7b\"level\":\"info\",\"format\":\"console\",\"enable-color\":false,\"enable-caller\":false,\"output-paths\":[\"stdout\"],\"error-output-paths\":[\"stderr\"],\"disable-stacktrace\":false,\"development\":false,\"name\":\"\",\"max-size-in-mb\":0,\"max-age-in-days\":0\x7d" ∧
    strContainsB NewOptions.string "\"format\":\"console\"" = true ∧
    strContainsB NewOptions.string "\"output-paths\":[\"stdout\"]" = true ∧
    strContainsB ({ NewOptions with OutputPaths := ["a", "b"] } : Options).string
      "\"output-paths\":[\"a\",\"b\"]" = true :=
  ⟨fun _ => rfl, by decide, by decide, by decide, by decide⟩

/-- C9: `AddFlags` registers exactly one flag per field, under the fixed
dotted names in the source's registration order, each flag's default being
the field's value at bind time, and the record's fields are all unchanged
by the binding. -/
theorem C9_addFlags (o : Options) :
    (o.AddFlags).2 = o ∧
    (o.AddFlags).1.map pflag.Flag.name =
      [flagLevel, flagFormat, flagEnableColor, flagEnableCaller,
       flagOutputPaths, flagErrorOutputPaths, flagDevelopment, flagName,
       flagDisableStacktrace, flagMaxSizeInMB, flagMaxAgeInDays] ∧
    (o.AddFlags).1.map pflag.Flag.defVal =
      [FlagVal.str o.Level, FlagVal.str o.Format,
       FlagVal.boolean o.EnableColor, FlagVal.boolean o.EnableCaller,
       FlagVal.strList o.OutputPaths, FlagVal.strList o.ErrorOutputPaths,
       FlagVal.boolean o.Development, FlagVal.str o.Name,
       FlagVal.boolean o.DisableStacktrace, FlagVal.intVal o.MaxSizeInMB,
       FlagVal.intVal o.MaxAgeInDays] :=
  ⟨rfl, rfl, rfl⟩

/-- C10: the empty string is accepted by the severity parser as the info
level (0) even though it is not one of the named severity tokens, so a
record whose Level is "" gets no level-related error: its Validate output
is the format check's contribution alone. -/
theorem C10_empty_level (o : Options) (h : o.Level = "") :
    levelUnmarshalText o.Level = Except.ok 0 ∧
    "" ∉ severityTokens ∧
    o.Validate =
      (if goToLower o.Format ≠ consoleFormat ∧ goToLower o.Format ≠ jsonFormat
       then [formatErrMsg o.Format] else []) := by
  have h0 : levelUnmarshalText o.Level = Except.ok 0 := by
    rw [h]
    decide
  refine ⟨h0, by decide, ?_⟩
  rw [Options.validate_eq, h0]
  simp

/-- C10 witness: the zero-initialized record (all fields at their Go zero
values, in particular Level = "") by the theorem at that record. -/
theorem C10_empty_level_witness :
    levelUnmarshalText ({} : Options).Level = Except.ok 0 ∧
    "" ∉ severityTokens ∧
    ({} : Options).Validate =
      (if goToLower ({} : Options).Format ≠ consoleFormat ∧
          goToLower ({} : Options).Format ≠ jsonFormat
       then [formatErrMsg ({} : Options).Format] else []) :=
  C10_empty_level {} rfl
